import Mathlib

/-!
Verification of the conversion-and-layout engine of the convert_to_parquet
repository (src/convert_to_parquet/convert_to_parquet.py), against its
natural-language specification.

The embedding below mirrors the Python source:
  paths are lists of components, the filesystem is a record of the created
  directories, the written files (path, tabular content) and a write log;
  a tabular batch is a list of rows (each row a list of cell values, after
  the reader's encoding replacement); reading a file either yields its rows
  or a descriptive error (Except).
-/

/-- One table row: a list of cell values (already encoding-replaced). -/
abbrev Row := List String

/-- A filesystem path, as its list of components. -/
abbrev FPath := List String

/-- Lookup of a file's content in an association list keyed by path. -/
def getFile : List (FPath × List Row) → FPath → Option (List Row)
  | [], _ => none
  | (q, r) :: t, p => if q = p then some r else getFile t p

/-- Store content at a path, overwriting in place if the path exists
(models writing a file, which overwrites if present). -/
def setFile : List (FPath × List Row) → FPath → List Row → List (FPath × List Row)
  | [], p, r => [(p, r)]
  | (q, s) :: t, p, r => if q = p then (p, r) :: t else (q, s) :: setFile t p r

/-- Names of the files that are direct children of a directory
(models os.listdir restricted to the files we track). -/
def childNames (fls : List (FPath × List Row)) (dir : FPath) : List String :=
  fls.filterMap (fun e => if e.1.dropLast = dir then e.1.getLast? else none)

/-- The filesystem state threaded through the run: the set of directories
created so far, the files on disk, and a log of every write performed
(in order), used to talk about which outputs a conversion produced. -/
structure FS where
  dirs : List FPath
  files : List (FPath × List Row)
  log : List FPath

/-- Contents of a directory in a filesystem state. -/
def listdir (fs : FS) (dir : FPath) : List String :=
  childNames fs.files dir

/-- Add a directory to the set if not present (os.mkdir semantics for one
level, without error when it exists). -/
def addDir (ds : List FPath) (d : FPath) : List FPath :=
  if d ∈ ds then ds else ds ++ [d]

/-- Every ancestor of a path, shortest first, the path itself last. -/
def dirAncestors (p : FPath) : List FPath :=
  (List.range (p.length + 1)).map (fun k => p.take k)

/-- Model of ensure_dir: os.makedirs(p, exist_ok=True) creates the
directory and all missing ancestors, idempotently. -/
def ensure_dir (fs : FS) (p : FPath) : FS :=
  { fs with dirs := (dirAncestors p).foldl addDir fs.dirs }

/-- Model of write_df_to_parquet: serializes one batch at the exact path,
overwriting if present; the write is also recorded in the log. -/
def write_df_to_parquet (fs : FS) (df : List Row) (out_path : FPath) : FS :=
  { fs with files := setFile fs.files out_path df, log := fs.log ++ [out_path] }

/-- Decimal digit characters of a natural number, most significant first
(the standard base-10 rendering used by str / format in the source). -/
def decChars (k : Nat) : List Char :=
  if h : k < 10 then [Nat.digitChar k]
  else decChars (k / 10) ++ [Nat.digitChar (k % 10)]
termination_by k
decreasing_by
  exact Nat.div_lt_self (by omega) (by omega)

/-- Decimal rendering zero-padded on the left to width 5: the Python
format spec 05d used for part numbers. -/
def pad5 (k : Nat) : String :=
  String.mk (List.replicate (5 - (decChars k).length) '0' ++ decChars k)

/-- Name of the k-th chunk file of a chunked CSV conversion. -/
def partName (k : Nat) : String :=
  "part-" ++ pad5 k ++ ".parquet"

/-- Split a list into consecutive chunks of at most n elements, in order
(models iterating pandas.read_csv with chunksize=n). -/
def chunksOf {α : Type} (n : Nat) (l : List α) : List (List α) :=
  match l with
  | [] => []
  | a :: t =>
    if h : n = 0 then []
    else (a :: t).take n :: chunksOf n ((a :: t).drop n)
termination_by l.length
decreasing_by
  have hn : 0 < n := Nat.pos_of_ne_zero h
  simp only [List.length_drop, List.length_cons]
  omega

/-- Write the chunks to dir, numbering them from k upward (the loop body
of the chunked branch of process_csv). -/
def writeParts (fs : FS) (dir : FPath) (k : Nat) : List (List Row) → FS
  | [] => fs
  | c :: cs => writeParts (write_df_to_parquet fs c (dir ++ [partName k])) dir (k + 1) cs

/-- The association-list entries that writing chunks from number k creates. -/
def partEntries (dir : FPath) (k : Nat) : List (List Row) → List (FPath × List Row)
  | [] => []
  | c :: cs => (dir ++ [partName k], c) :: partEntries dir (k + 1) cs

/-- String sort used on the part directory listing (Python sorted on
strings); only the fact that it permutes its input is relied on. -/
def sortStr (l : List String) : List String :=
  List.insertionSort (fun a b => ¬ b < a) l

/-- Model of process_csv: if the file is larger than 50 MiB, write one
parquet file per chunk into a sub-directory and return the sorted listing
of that directory; otherwise write the whole table as one parquet file. -/
def process_csv (fs : FS) (fileSize : Nat) (rows : List Row)
    (out_dir : FPath) (basename : String) (chunk_size : Nat) : FS × List FPath :=
  if 50 * 1024 * 1024 < fileSize then
    let part_dir := out_dir ++ [basename]
    let fs1 := ensure_dir fs part_dir
    let fs2 := writeParts fs1 part_dir 0 (chunksOf chunk_size rows)
    (fs2, (sortStr (listdir fs2 part_dir)).map (fun n => part_dir ++ [n]))
  else
    let out_file := out_dir ++ [basename ++ ".parquet"]
    (write_df_to_parquet fs rows out_file, [out_file])


/-! Basic facts about chunking. -/

theorem chunksOf_nil {α : Type} (n : Nat) : chunksOf n ([] : List α) = [] := by
  rw [chunksOf]

theorem chunksOf_cons {α : Type} (n : Nat) (hn : n ≠ 0) (a : α) (t : List α) :
    chunksOf n (a :: t) = (a :: t).take n :: chunksOf n ((a :: t).drop n) := by
  rw [chunksOf]
  exact dif_neg hn

theorem chunksOf_flatten_aux {α : Type} (n : Nat) (hn : 0 < n) :
    ∀ (len : Nat) (l : List α), l.length ≤ len → (chunksOf n l).flatten = l := by
  intro len
  induction len with
  | zero =>
    intro l hl
    have h0 : l = [] := List.eq_nil_of_length_eq_zero (by omega)
    subst h0
    simp [chunksOf_nil]
  | succ m ih =>
    intro l hl
    cases l with
    | nil => simp [chunksOf_nil]
    | cons a t =>
      rw [chunksOf_cons n (by omega) a t]
      simp only [List.flatten_cons]
      rw [ih ((a :: t).drop n) (by
        simp only [List.length_drop, List.length_cons]
        simp only [List.length_cons] at hl
        omega)]
      exact List.take_append_drop n (a :: t)

theorem chunksOf_flatten {α : Type} (n : Nat) (hn : 0 < n) (l : List α) :
    (chunksOf n l).flatten = l :=
  chunksOf_flatten_aux n hn l.length l (Nat.le_refl _)

theorem length_le_of_mem_chunksOf_aux {α : Type} (n : Nat) :
    ∀ (len : Nat) (l : List α), l.length ≤ len → ∀ c ∈ chunksOf n l, c.length ≤ n := by
  intro len
  induction len with
  | zero =>
    intro l hl c hc
    have h0 : l = [] := List.eq_nil_of_length_eq_zero (by omega)
    subst h0
    rw [chunksOf_nil] at hc
    cases hc
  | succ m ih =>
    intro l hl c hc
    cases l with
    | nil => rw [chunksOf_nil] at hc; cases hc
    | cons a t =>
      by_cases hn : n = 0
      · rw [chunksOf, dif_pos hn] at hc
        cases hc
      · rw [chunksOf_cons n hn a t] at hc
        rcases List.mem_cons.mp hc with h1 | h1
        · subst h1
          exact List.length_take_le n (a :: t)
        · exact ih ((a :: t).drop n)
            (by
              simp only [List.length_drop, List.length_cons]
              simp only [List.length_cons] at hl
              omega) c h1

theorem length_le_of_mem_chunksOf {α : Type} {n : Nat} {l : List α} {c : List α}
    (h : c ∈ chunksOf n l) : c.length ≤ n :=
  length_le_of_mem_chunksOf_aux n l.length l (Nat.le_refl _) c h

theorem chunksOf_length_aux {α : Type} (n : Nat) (hn : 0 < n) :
    ∀ (len : Nat) (l : List α), l.length ≤ len →
      (chunksOf n l).length = (l.length + n - 1) / n := by
  intro len
  induction len with
  | zero =>
    intro l hl
    have h0 : l = [] := List.eq_nil_of_length_eq_zero (by omega)
    subst h0
    rw [chunksOf_nil]
    simp only [List.length_nil]
    exact (Nat.div_eq_of_lt (by omega)).symm
  | succ m ih =>
    intro l hl
    cases l with
    | nil =>
      rw [chunksOf_nil]
      simp only [List.length_nil]
      exact (Nat.div_eq_of_lt (by omega)).symm
    | cons a t =>
      rw [chunksOf_cons n (by omega) a t]
      simp only [List.length_cons]
      rw [ih ((a :: t).drop n) (by
        simp only [List.length_drop, List.length_cons]
        simp only [List.length_cons] at hl
        omega)]
      simp only [List.length_drop, List.length_cons]
      rcases Nat.lt_or_ge (t.length + 1) n with hc | hc
      · have h1 : t.length + 1 - n = 0 := by omega
        rw [h1]
        have h2 : (0 + n - 1) / n = 0 := Nat.div_eq_of_lt (by omega)
        rw [h2]
        have h3 : (t.length + 1 + n - 1) / n = 1 :=
          Nat.div_eq_of_lt_le (by omega) (by omega)
        omega
      · have h1 : t.length + 1 - n + n - 1 = t.length := by omega
        have h2 : t.length + 1 + n - 1 = t.length + n := by omega
        rw [h1, h2, Nat.add_div_right _ hn]

theorem chunksOf_length {α : Type} (n : Nat) (hn : 0 < n) (l : List α) :
    (chunksOf n l).length = (l.length + n - 1) / n :=
  chunksOf_length_aux n hn l.length l (Nat.le_refl _)

/-! Decimal rendering: value semantics and injectivity of part names. -/

/-- Numeric value of a list of decimal digit characters. -/
def charsVal (cs : List Char) : Nat :=
  cs.foldl (fun a c => a * 10 + (c.toNat - 48)) 0

theorem digitChar_toNat {d : Nat} (h : d < 10) : (Nat.digitChar d).toNat = 48 + d := by
  interval_cases d <;> rfl

theorem foldl_decChars (k : Nat) : ∀ a : Nat,
    List.foldl (fun a c => a * 10 + (c.toNat - 48)) a (decChars k) =
      a * 10 ^ (decChars k).length + k := by
  induction k using Nat.strong_induction_on with
  | _ k ih =>
    intro a
    by_cases h : k < 10
    · rw [decChars, dif_pos h]
      simp only [List.foldl_cons, List.foldl_nil, List.length_cons, List.length_nil]
      rw [digitChar_toNat h]
      omega
    · rw [decChars, dif_neg h]
      rw [List.foldl_append]
      have hdiv : k / 10 < k := Nat.div_lt_self (by omega) (by omega)
      rw [ih _ hdiv a]
      simp only [List.foldl_cons, List.foldl_nil, List.length_append, List.length_cons,
        List.length_nil]
      rw [digitChar_toNat (Nat.mod_lt _ (by omega))]
      have hk : 10 * (k / 10) + k % 10 = k := Nat.div_add_mod k 10
      have hB : (10 : Nat) ^ ((decChars (k / 10)).length + (0 + 1)) =
          10 ^ (decChars (k / 10)).length * 10 := by
        rw [pow_succ]
      rw [hB]
      have e1 : a * (10 ^ (decChars (k / 10)).length * 10) =
          a * 10 ^ (decChars (k / 10)).length * 10 := by ring
      rw [e1]
      omega

theorem charsVal_decChars (k : Nat) : charsVal (decChars k) = k := by
  have h := foldl_decChars k 0
  simpa [charsVal] using h

theorem charsVal_replicate_zero (z : Nat) (cs : List Char) :
    charsVal (List.replicate z '0' ++ cs) = charsVal cs := by
  induction z with
  | zero => simp
  | succ m ih =>
    simp only [List.replicate_succ, List.cons_append, charsVal, List.foldl_cons] at *
    have h0 : (0 : Nat) * 10 + ('0'.toNat - 48) = 0 := by decide
    rw [h0]
    exact ih

theorem pad5_val (k : Nat) : charsVal (pad5 k).data = k := by
  show charsVal (List.replicate (5 - (decChars k).length) '0' ++ decChars k) = k
  rw [charsVal_replicate_zero, charsVal_decChars]

theorem pad5_inj {a b : Nat} (h : pad5 a = pad5 b) : a = b := by
  have hv := congrArg (fun s => charsVal s.data) h
  simpa [pad5_val] using hv

theorem partName_inj {a b : Nat} (h : partName a = partName b) : a = b := by
  apply pad5_inj
  have hd := congrArg String.data h
  simp only [partName, String.data_append] at hd
  have h1 : "part-".data ++ (pad5 a).data = "part-".data ++ (pad5 b).data :=
    List.append_cancel_right hd
  have h2 : (pad5 a).data = (pad5 b).data := List.append_cancel_left h1
  show String.mk (List.replicate (5 - (decChars a).length) '0' ++ decChars a) =
    String.mk (List.replicate (5 - (decChars b).length) '0' ++ decChars b)
  exact congrArg String.mk h2

/-! Association-list and directory-listing facts. -/

theorem getFile_setFile_self (fls : List (FPath × List Row)) (p : FPath) (r : List Row) :
    getFile (setFile fls p r) p = some r := by
  induction fls with
  | nil => simp [setFile, getFile]
  | cons e t ih =>
    rw [setFile]
    by_cases h : e.1 = p
    · rw [if_pos h, getFile, if_pos rfl]
    · rw [if_neg h, getFile, if_neg h]
      exact ih

theorem getFile_setFile_ne (fls : List (FPath × List Row)) (p q : FPath) (r : List Row)
    (h : p ≠ q) : getFile (setFile fls p r) q = getFile fls q := by
  induction fls with
  | nil => simp [setFile, getFile, h]
  | cons e t ih =>
    rw [setFile]
    by_cases he : e.1 = p
    · rw [if_pos he, getFile, if_neg h, getFile, if_neg (he ▸ h)]
    · rw [if_neg he, getFile, getFile]
      by_cases hq : e.1 = q
      · rw [if_pos hq, if_pos hq]
      · rw [if_neg hq, if_neg hq]
        exact ih

theorem setFile_of_getFile_none (fls : List (FPath × List Row)) (p : FPath) (r : List Row)
    (h : getFile fls p = none) : setFile fls p r = fls ++ [(p, r)] := by
  induction fls with
  | nil => simp [setFile]
  | cons e t ih =>
    rw [getFile] at h
    by_cases he : e.1 = p
    · rw [if_pos he] at h
      cases h
    · rw [if_neg he] at h
      rw [setFile, if_neg he, List.cons_append, ih h]

theorem getFile_append_of_none (a b : List (FPath × List Row)) (p : FPath)
    (h : getFile a p = none) : getFile (a ++ b) p = getFile b p := by
  induction a with
  | nil => simp
  | cons e t ih =>
    rw [getFile] at h
    by_cases he : e.1 = p
    · rw [if_pos he] at h
      cases h
    · rw [if_neg he] at h
      rw [List.cons_append, getFile, if_neg he]
      exact ih h

theorem getFile_singleton (q p : FPath) (r : List Row) :
    getFile [(q, r)] p = if q = p then some r else none := by
  rw [getFile]
  by_cases h : q = p
  · rw [if_pos h, if_pos h]
  · rw [if_neg h, if_neg h, getFile]

theorem childNames_append (a b : List (FPath × List Row)) (dir : FPath) :
    childNames (a ++ b) dir = childNames a dir ++ childNames b dir := by
  simp [childNames, List.filterMap_append]

theorem getFile_of_childNames_nil (fls : List (FPath × List Row)) (dir : FPath)
    (h : childNames fls dir = []) (x : String) : getFile fls (dir ++ [x]) = none := by
  induction fls with
  | nil => rw [getFile]
  | cons e t ih =>
    rw [childNames, List.filterMap_cons] at h
    rw [getFile]
    by_cases he : e.1 = dir ++ [x]
    · exfalso
      rw [he] at h
      rw [if_pos (List.dropLast_concat)] at h
      rw [List.getLast?_concat] at h
      cases h
    · rw [if_neg he]
      apply ih
      rcases hsplit : (if e.1.dropLast = dir then e.1.getLast? else none) with _ | v
      · rw [hsplit] at h
        exact h
      · rw [hsplit] at h
        cases h

/-! Behaviour of the chunked write loop on a fresh part directory. -/

theorem writeParts_dirs (dir : FPath) (cs : List (List Row)) :
    ∀ (fs : FS) (k : Nat), (writeParts fs dir k cs).dirs = fs.dirs := by
  induction cs with
  | nil => intro fs k; rw [writeParts]
  | cons c cs ih =>
    intro fs k
    rw [writeParts, ih]
    rfl

theorem writeParts_log (dir : FPath) (cs : List (List Row)) :
    ∀ (fs : FS) (k : Nat),
      (writeParts fs dir k cs).log =
        fs.log ++ (List.range' k cs.length).map (fun j => dir ++ [partName j]) := by
  induction cs with
  | nil => intro fs k; rw [writeParts]; simp [List.range']
  | cons c cs ih =>
    intro fs k
    rw [writeParts, ih]
    show (fs.log ++ [dir ++ [partName k]]) ++ _ = _
    rw [List.length_cons, List.range'_succ, List.map_cons, List.append_assoc]
    rfl

theorem writeParts_files (dir : FPath) (cs : List (List Row)) :
    ∀ (fs : FS) (k : Nat),
      (∀ j, k ≤ j → getFile fs.files (dir ++ [partName j]) = none) →
      (writeParts fs dir k cs).files = fs.files ++ partEntries dir k cs := by
  induction cs with
  | nil => intro fs k _; rw [writeParts, partEntries]; simp
  | cons c cs ih =>
    intro fs k hfresh
    rw [writeParts, partEntries]
    have hstep : (write_df_to_parquet fs c (dir ++ [partName k])).files =
        fs.files ++ [(dir ++ [partName k], c)] := by
      show setFile fs.files (dir ++ [partName k]) c = _
      exact setFile_of_getFile_none _ _ _ (hfresh k (Nat.le_refl k))
    have hnext : ∀ j, k + 1 ≤ j →
        getFile (write_df_to_parquet fs c (dir ++ [partName k])).files
          (dir ++ [partName j]) = none := by
      intro j hj
      rw [hstep]
      rw [getFile_append_of_none _ _ _ (hfresh j (by omega))]
      rw [getFile_singleton]
      rw [if_neg]
      intro he
      have h1 : partName k = partName j := by
        have := List.append_cancel_left he
        exact (List.cons.injEq _ _ _ _).mp this |>.1
      have := partName_inj h1
      omega
    rw [ih _ (k + 1) hnext, hstep, List.append_assoc]
    rfl

theorem childNames_partEntries (dir : FPath) (cs : List (List Row)) :
    ∀ k, childNames (partEntries dir k cs) dir = (List.range' k cs.length).map partName := by
  induction cs with
  | nil => intro k; simp [partEntries, childNames, List.range']
  | cons c cs ih =>
    intro k
    rw [partEntries]
    rw [List.length_cons, List.range'_succ, List.map_cons, ← ih (k + 1)]
    simp [childNames, List.filterMap_cons, List.dropLast_concat, List.getLast?_concat]

theorem getFile_partEntries (dir : FPath) (cs : List (List Row)) :
    ∀ (k i : Nat) (h : i < cs.length),
      getFile (partEntries dir k cs) (dir ++ [partName (k + i)]) =
        some (cs.get ⟨i, h⟩) := by
  induction cs with
  | nil => intro k i h; simp at h
  | cons c cs ih =>
    intro k i h
    cases i with
    | zero =>
      simp [partEntries, getFile]
    | succ i =>
      rw [partEntries, getFile, if_neg]
      · have harr : k + (i + 1) = k + 1 + i := by omega
        rw [harr]
        have hi : i < cs.length := by
          simp only [List.length_cons] at h
          omega
        rw [ih (k + 1) i hi]
        rfl
      · intro he
        have h1 : partName k = partName (k + (i + 1)) := by
          have := List.append_cancel_left he
          exact (List.cons.injEq _ _ _ _).mp this |>.1
        have := partName_inj h1
        omega

/-! Directory creation: makedirs semantics. -/

theorem ensure_dir_files (fs : FS) (p : FPath) : (ensure_dir fs p).files = fs.files := rfl

theorem ensure_dir_log (fs : FS) (p : FPath) : (ensure_dir fs p).log = fs.log := rfl

theorem listdir_ensure_dir (fs : FS) (p d : FPath) :
    listdir (ensure_dir fs p) d = listdir fs d := rfl

theorem mem_addDir_of_mem {x : FPath} {ds : List FPath} (d : FPath) (h : x ∈ ds) :
    x ∈ addDir ds d := by
  unfold addDir
  split
  · exact h
  · exact List.mem_append_left _ h

theorem mem_addDir_self (ds : List FPath) (d : FPath) : d ∈ addDir ds d := by
  unfold addDir
  split
  · assumption
  · exact List.mem_append_right _ (by simp)

theorem mem_foldl_addDir (l : List FPath) :
    ∀ (ds : List FPath) (x : FPath), (x ∈ ds ∨ x ∈ l) → x ∈ l.foldl addDir ds := by
  induction l with
  | nil =>
    intro ds x h
    rcases h with h | h
    · exact h
    · cases h
  | cons d l ih =>
    intro ds x h
    rw [List.foldl_cons]
    rcases h with h | h
    · exact ih _ _ (Or.inl (mem_addDir_of_mem d h))
    · rcases List.mem_cons.mp h with h | h
      · subst h
        exact ih _ _ (Or.inl (mem_addDir_self ds x))
      · exact ih _ _ (Or.inr h)

theorem foldl_addDir_of_all_mem (l : List FPath) :
    ∀ ds : List FPath, (∀ a ∈ l, a ∈ ds) → l.foldl addDir ds = ds := by
  induction l with
  | nil => intro ds _; rfl
  | cons d l ih =>
    intro ds h
    rw [List.foldl_cons]
    have hd : addDir ds d = ds := by
      unfold addDir
      rw [if_pos (h d (List.mem_cons_self d l))]
    rw [hd]
    exact ih ds (fun a ha => h a (List.mem_cons_of_mem d ha))

theorem mem_dirs_ensure_dir_of_ancestor (fs : FS) (p d : FPath) (h : d ∈ dirAncestors p) :
    d ∈ (ensure_dir fs p).dirs :=
  mem_foldl_addDir _ _ _ (Or.inr h)

theorem mem_dirs_ensure_dir_of_mem (fs : FS) (p d : FPath) (h : d ∈ fs.dirs) :
    d ∈ (ensure_dir fs p).dirs :=
  mem_foldl_addDir _ _ _ (Or.inl h)

theorem ensure_dir_idem (fs : FS) (p : FPath) :
    ensure_dir (ensure_dir fs p) p = ensure_dir fs p := by
  unfold ensure_dir
  congr 1
  exact foldl_addDir_of_all_mem _ _ (fun a ha => mem_foldl_addDir _ _ _ (Or.inr ha))

/-! Packaged behaviour of process_csv. -/

theorem process_csv_small (fs : FS) (fileSize : Nat) (rows : List Row)
    (out_dir : FPath) (basename : String) (chunk_size : Nat)
    (h : ¬ 50 * 1024 * 1024 < fileSize) :
    process_csv fs fileSize rows out_dir basename chunk_size =
      (write_df_to_parquet fs rows (out_dir ++ [basename ++ ".parquet"]),
       [out_dir ++ [basename ++ ".parquet"]]) := by
  rw [process_csv, if_neg h]

theorem process_csv_large (fs : FS) (fileSize : Nat) (rows : List Row)
    (out_dir : FPath) (basename : String) (chunk_size : Nat)
    (h : 50 * 1024 * 1024 < fileSize) :
    process_csv fs fileSize rows out_dir basename chunk_size =
      (writeParts (ensure_dir fs (out_dir ++ [basename])) (out_dir ++ [basename]) 0
         (chunksOf chunk_size rows),
       (sortStr (listdir
           (writeParts (ensure_dir fs (out_dir ++ [basename])) (out_dir ++ [basename]) 0
             (chunksOf chunk_size rows)) (out_dir ++ [basename]))).map
         (fun n => (out_dir ++ [basename]) ++ [n])) := by
  rw [process_csv, if_pos h]

theorem process_csv_chunked_spec (fs : FS) (fileSize : Nat) (rows : List Row)
    (out_dir : FPath) (basename : String)
    (hlarge : 50 * 1024 * 1024 < fileSize)
    (hfresh : listdir fs (out_dir ++ [basename]) = []) :
    (process_csv fs fileSize rows out_dir basename 200000).1.files =
        fs.files ++ partEntries (out_dir ++ [basename]) 0 (chunksOf 200000 rows) ∧
    listdir (process_csv fs fileSize rows out_dir basename 200000).1 (out_dir ++ [basename]) =
        (List.range' 0 (chunksOf 200000 rows).length).map partName ∧
    (process_csv fs fileSize rows out_dir basename 200000).2 =
        (sortStr ((List.range' 0 (chunksOf 200000 rows).length).map partName)).map
          (fun nm => (out_dir ++ [basename]) ++ [nm]) ∧
    (process_csv fs fileSize rows out_dir basename 200000).1.log =
        fs.log ++ (List.range' 0 (chunksOf 200000 rows).length).map
          (fun j => (out_dir ++ [basename]) ++ [partName j]) := by
  have hfresh2 : ∀ j, 0 ≤ j →
      getFile (ensure_dir fs (out_dir ++ [basename])).files
        ((out_dir ++ [basename]) ++ [partName j]) = none := by
    intro j _
    show getFile fs.files _ = none
    exact getFile_of_childNames_nil fs.files _ hfresh _
  have hfiles :
      (writeParts (ensure_dir fs (out_dir ++ [basename])) (out_dir ++ [basename]) 0
        (chunksOf 200000 rows)).files =
      fs.files ++ partEntries (out_dir ++ [basename]) 0 (chunksOf 200000 rows) :=
    writeParts_files _ _ _ _ hfresh2
  have hlist :
      listdir (writeParts (ensure_dir fs (out_dir ++ [basename])) (out_dir ++ [basename]) 0
        (chunksOf 200000 rows)) (out_dir ++ [basename]) =
      (List.range' 0 (chunksOf 200000 rows).length).map partName := by
    have hfresh3 : childNames fs.files (out_dir ++ [basename]) = [] := hfresh
    show childNames _ _ = _
    rw [hfiles, childNames_append]
    show childNames fs.files _ ++ _ = _
    rw [hfresh3, childNames_partEntries]
    rfl
  rw [process_csv_large fs fileSize rows out_dir basename 200000 hlarge]
  refine ⟨hfiles, hlist, ?_, ?_⟩
  · rw [hlist]
  · rw [writeParts_log]
    rfl

theorem process_csv_chunked_getFile (fs : FS) (fileSize : Nat) (rows : List Row)
    (out_dir : FPath) (basename : String)
    (hlarge : 50 * 1024 * 1024 < fileSize)
    (hfresh : listdir fs (out_dir ++ [basename]) = [])
    (k : Nat) (hk : k < (chunksOf 200000 rows).length) :
    getFile (process_csv fs fileSize rows out_dir basename 200000).1.files
        ((out_dir ++ [basename]) ++ [partName k]) =
      some ((chunksOf 200000 rows).get ⟨k, hk⟩) := by
  rw [(process_csv_chunked_spec fs fileSize rows out_dir basename hlarge hfresh).1]
  rw [getFile_append_of_none _ _ _ (getFile_of_childNames_nil fs.files _ hfresh _)]
  have h := getFile_partEntries (out_dir ++ [basename]) (chunksOf 200000 rows) 0 k hk
  simpa using h

/-! Reading back the parts in numeric order. -/

theorem map_parts_getD (F : List (FPath × List Row)) (dir : FPath) (cs : List (List Row))
    (H : ∀ (k : Nat) (h : k < cs.length),
      getFile F (dir ++ [partName k]) = some (cs.get ⟨k, h⟩)) :
    (List.range cs.length).map (fun k => (getFile F (dir ++ [partName k])).getD []) = cs := by
  apply List.ext_getElem
  · simp
  · intro i h1 h2
    simp only [List.getElem_map, List.getElem_range]
    rw [H i h2]
    rfl

/-- C1: for a CSV input whose size in bytes is strictly greater than
50 * 1024 * 1024 the file is read as the sequence of chunks of at most
200000 rows each, the k-th chunk being written as the k-th part file;
otherwise (size at most 50 MiB) the whole file is read as one batch and
exactly one output file is produced, containing all the rows. -/
theorem c1_chunking_policy (fs : FS) (fileSize : Nat) (rows : List Row)
    (out_dir : FPath) (basename : String)
    (hfresh : listdir fs (out_dir ++ [basename]) = []) :
    (50 * 1024 * 1024 < fileSize →
      (∀ c ∈ chunksOf 200000 rows, c.length ≤ 200000) ∧
      ∀ (k : Nat) (hk : k < (chunksOf 200000 rows).length),
        getFile (process_csv fs fileSize rows out_dir basename 200000).1.files
            ((out_dir ++ [basename]) ++ [partName k]) =
          some ((chunksOf 200000 rows).get ⟨k, hk⟩)) ∧
    (fileSize ≤ 50 * 1024 * 1024 →
      (process_csv fs fileSize rows out_dir basename 200000).2 =
          [out_dir ++ [basename ++ ".parquet"]] ∧
      getFile (process_csv fs fileSize rows out_dir basename 200000).1.files
          (out_dir ++ [basename ++ ".parquet"]) = some rows) := by
  constructor
  · intro hlarge
    constructor
    · intro c hc
      exact length_le_of_mem_chunksOf hc
    · intro k hk
      exact process_csv_chunked_getFile fs fileSize rows out_dir basename hlarge hfresh k hk
  · intro hsmall
    have hns : ¬ 50 * 1024 * 1024 < fileSize := by omega
    rw [process_csv_small fs fileSize rows out_dir basename 200000 hns]
    exact ⟨rfl, getFile_setFile_self fs.files _ rows⟩

/-- Witness for C1: a 100-byte CSV with two rows converts to exactly one
output file holding both rows. -/
theorem c1_chunking_policy_witness :
    (process_csv ⟨[], [], []⟩ 100 [["a", "b"], ["c", "d"]] ["out"] "t" 200000).2 =
        [["out"] ++ ["t" ++ ".parquet"]] ∧
    getFile (process_csv ⟨[], [], []⟩ 100 [["a", "b"], ["c", "d"]] ["out"] "t" 200000).1.files
        (["out"] ++ ["t" ++ ".parquet"]) = some [["a", "b"], ["c", "d"]] :=
  (c1_chunking_policy ⟨[], [], []⟩ 100 [["a", "b"], ["c", "d"]] ["out"] "t" rfl).2 (by omega)

/-- C2: a CSV of size at most 50 MiB produces exactly one output file (one
write); a CSV larger than 50 MiB produces ceil(rowCount / 200000) output
parts, and concatenating the contents of the part files in numeric filename
order (part number 0, 1, ...) reproduces the original rows in the original
order with the original (encoding-replaced) values. -/
theorem c2_part_count_roundtrip (fs : FS) (fileSize : Nat) (rows : List Row)
    (out_dir : FPath) (basename : String)
    (hfresh : listdir fs (out_dir ++ [basename]) = []) :
    (fileSize ≤ 50 * 1024 * 1024 →
      (process_csv fs fileSize rows out_dir basename 200000).2.length = 1 ∧
      (process_csv fs fileSize rows out_dir basename 200000).1.log =
        fs.log ++ [out_dir ++ [basename ++ ".parquet"]]) ∧
    (50 * 1024 * 1024 < fileSize →
      (process_csv fs fileSize rows out_dir basename 200000).2.length =
          (rows.length + 200000 - 1) / 200000 ∧
      ((List.range ((rows.length + 200000 - 1) / 200000)).map (fun k =>
          (getFile (process_csv fs fileSize rows out_dir basename 200000).1.files
            ((out_dir ++ [basename]) ++ [partName k])).getD [])).flatten = rows) := by
  constructor
  · intro hsmall
    have hns : ¬ 50 * 1024 * 1024 < fileSize := by omega
    rw [process_csv_small fs fileSize rows out_dir basename 200000 hns]
    exact ⟨rfl, rfl⟩
  · intro hlarge
    obtain ⟨hfiles, hlist, houts, hlog⟩ :=
      process_csv_chunked_spec fs fileSize rows out_dir basename hlarge hfresh
    constructor
    · rw [houts, List.length_map]
      unfold sortStr
      rw [List.length_insertionSort, List.length_map, List.length_range']
      exact chunksOf_length 200000 (by norm_num) rows
    · rw [← chunksOf_length 200000 (by norm_num) rows]
      rw [map_parts_getD _ _ _ (fun k hk =>
        process_csv_chunked_getFile fs fileSize rows out_dir basename hlarge hfresh k hk)]
      exact chunksOf_flatten 200000 (by norm_num) rows

/-- Witness for C2: a 52428801-byte CSV (just over 50 MiB) with two rows
produces ceil(2/200000) = 1 part, and reading the parts back in numeric
order reproduces the rows. -/
theorem c2_part_count_roundtrip_witness :
    (process_csv ⟨[], [], []⟩ 52428801 [["r1"], ["r2"]] ["o"] "b" 200000).2.length =
        (([["r1"], ["r2"]] : List Row).length + 200000 - 1) / 200000 ∧
    ((List.range ((([["r1"], ["r2"]] : List Row).length + 200000 - 1) / 200000)).map (fun k =>
        (getFile (process_csv ⟨[], [], []⟩ 52428801 [["r1"], ["r2"]] ["o"] "b" 200000).1.files
          ((["o"] ++ ["b"]) ++ [partName k])).getD [])).flatten = [["r1"], ["r2"]] :=
  (c2_part_count_roundtrip ⟨[], [], []⟩ 52428801 [["r1"], ["r2"]] ["o"] "b" rfl).2 (by omega)

/-- C4: the part files written by a chunked CSV conversion are named
part-00000.parquet, part-00001.parquet, ... zero-padded to five digits,
numbered consecutively from 0 in chunk-emission order with no gaps: the
part directory's listing is exactly the part names for 0 .. chunkCount - 1,
and the k-th emitted chunk is stored under partName k. -/
theorem c4_part_naming (fs : FS) (fileSize : Nat) (rows : List Row)
    (out_dir : FPath) (basename : String)
    (hfresh : listdir fs (out_dir ++ [basename]) = [])
    (hlarge : 50 * 1024 * 1024 < fileSize) :
    listdir (process_csv fs fileSize rows out_dir basename 200000).1 (out_dir ++ [basename]) =
        (List.range (chunksOf 200000 rows).length).map partName ∧
    (∀ (k : Nat) (hk : k < (chunksOf 200000 rows).length),
      getFile (process_csv fs fileSize rows out_dir basename 200000).1.files
          ((out_dir ++ [basename]) ++ [partName k]) =
        some ((chunksOf 200000 rows).get ⟨k, hk⟩)) ∧
    partName 0 = "part-00000.parquet" ∧ partName 1 = "part-00001.parquet" := by
  obtain ⟨hfiles, hlist, houts, hlog⟩ :=
    process_csv_chunked_spec fs fileSize rows out_dir basename hlarge hfresh
  refine ⟨?_, ?_, ?_, ?_⟩
  · rw [hlist, List.range_eq_range']
  · intro k hk
    exact process_csv_chunked_getFile fs fileSize rows out_dir basename hlarge hfresh k hk
  · have h0 : decChars 0 = ['0'] := by rw [decChars]; norm_num; decide
    rw [partName, pad5, h0]
    decide
  · have h1 : decChars 1 = ['1'] := by rw [decChars]; norm_num; decide
    rw [partName, pad5, h1]
    decide

/-- Witness for C4 at a concrete over-threshold CSV with one chunk. -/
theorem c4_part_naming_witness :
    listdir (process_csv ⟨[], [], []⟩ 52428801 [["x"]] ["o"] "b" 200000).1 (["o"] ++ ["b"]) =
        (List.range (chunksOf 200000 [["x"]]).length).map partName ∧
    (∀ (k : Nat) (hk : k < (chunksOf 200000 ([["x"]] : List Row)).length),
      getFile (process_csv ⟨[], [], []⟩ 52428801 [["x"]] ["o"] "b" 200000).1.files
          ((["o"] ++ ["b"]) ++ [partName k]) =
        some ((chunksOf 200000 ([["x"]] : List Row)).get ⟨k, hk⟩)) ∧
    partName 0 = "part-00000.parquet" ∧ partName 1 = "part-00001.parquet" :=
  c4_part_naming ⟨[], [], []⟩ 52428801 [["x"]] ["o"] "b" rfl (by omega)

/-! The orchestrator: discovery, per-file dispatch, summary, deletion. -/

/-- Model of os.path.splitext: split a file name into stem and extension at
the last dot, never treating the leading dots of a hidden file as the start
of an extension. -/
def splitext (s : String) : String × String :=
  let cs := s.data
  let lead := cs.takeWhile (fun c => c = '.')
  let rest := cs.dropWhile (fun c => c = '.')
  let r := rest.reverse
  let extRev := r.takeWhile (fun c => c ≠ '.')
  if extRev.length = r.length then (s, "")
  else (String.mk (lead ++ (r.drop (extRev.length + 1)).reverse),
        String.mk ('.' :: extRev.reverse))

/-- Model of str.lower restricted to what extension comparison needs:
lower-case every character. -/
def lower (s : String) : String := String.mk (s.data.map Char.toLower)

/-- The extension set the source walks for (a Python set; only membership
is ever used). -/
def EXTS : List String := [".csv", ".xlsx", ".xls", ".dta"]

/-- Equality of read results is decidable (needed only so that concrete
runs can be evaluated inside proofs). -/
instance {e a : Type} [DecidableEq e] [DecidableEq a] : DecidableEq (Except e a) := fun x y =>
  match x, y with
  | Except.ok u, Except.ok v =>
    if h : u = v then Decidable.isTrue (h ▸ rfl)
    else Decidable.isFalse (fun he => h (by injection he))
  | Except.ok _, Except.error _ => Decidable.isFalse (fun he => Except.noConfusion he)
  | Except.error _, Except.ok _ => Decidable.isFalse (fun he => Except.noConfusion he)
  | Except.error u, Except.error v =>
    if h : u = v then Decidable.isTrue (h ▸ rfl)
    else Decidable.isFalse (fun he => h (by injection he))

/-- An input file as discovery sees it: its base name, its size in bytes,
and the outcome of reading it (its rows after encoding replacement, or a
descriptive read error). -/
structure RawFile where
  fname : String
  size : Nat
  data : Except String (List Row)
deriving DecidableEq

/-- An input directory tree: the files of this directory and the named
sub-directories. -/
inductive DirTree where
  | node : List RawFile → List (String × DirTree) → DirTree

mutual

/-- Model of os.walk in top-down order: the files of the current directory
first, then each sub-directory recursively. -/
def walk : DirTree → FPath → List (FPath × RawFile)
  | DirTree.node fls subs, d => fls.map (fun f => (d, f)) ++ walkSubs subs d

/-- Walk each sub-directory of d in order. -/
def walkSubs : List (String × DirTree) → FPath → List (FPath × RawFile)
  | [], _ => []
  | (nm, t) :: rest, d => walk t (d ++ [nm]) ++ walkSubs rest d

end

/-- Model of find_files: every file under root whose lower-cased extension
is in exts, in walk order. -/
def find_files (t : DirTree) (root : FPath) (exts : List String) : List (FPath × RawFile) :=
  (walk t root).filter (fun x => lower (splitext x.2.fname).2 ∈ exts)

/-- One entry of the run summary: the original file path, the produced
output paths, and the error description if the conversion failed. -/
structure Outcome where
  orig : FPath
  outs : List FPath
  err : Option String
deriving DecidableEq

/-- The read result of a file, as the orchestrator's try/except sees it. -/
def errOf (f : RawFile) : Option String :=
  match f.data with
  | Except.ok _ => none
  | Except.error e => some e

/-- The body of the per-file loop of main: compute the mirrored target
directory (os.path.relpath of the file's directory under the input root is
its component list after the root; the "." Python returns for the root
itself is the empty relative path), create it with ensure_dir, then
dispatch on the lower-cased extension; any read error becomes a failed
outcome with an empty output list. -/
def processOne (fs : FS) (input_dir output_dir : FPath) (dirpath : FPath) (f : RawFile) :
    FS × Outcome :=
  let rel_dir := dirpath.drop input_dir.length
  let target_dir := output_dir ++ rel_dir
  let fs1 := ensure_dir fs target_dir
  let name := (splitext f.fname).1
  let ext := lower (splitext f.fname).2
  let fpath := dirpath ++ [f.fname]
  if ext = ".csv" then
    match f.data with
    | Except.ok rows =>
      let r := process_csv fs1 f.size rows target_dir name 200000
      (r.1, ⟨fpath, r.2, none⟩)
    | Except.error e => (fs1, ⟨fpath, [], some e⟩)
  else if ext = ".xlsx" ∨ ext = ".xls" then
    match f.data with
    | Except.ok rows =>
      let out_file := target_dir ++ [name ++ ".parquet"]
      (write_df_to_parquet fs1 rows out_file, ⟨fpath, [out_file], none⟩)
    | Except.error e => (fs1, ⟨fpath, [], some e⟩)
  else if ext = ".dta" then
    match f.data with
    | Except.ok rows =>
      let out_file := target_dir ++ [name ++ ".parquet"]
      (write_df_to_parquet fs1 rows out_file, ⟨fpath, [out_file], none⟩)
    | Except.error e => (fs1, ⟨fpath, [], some e⟩)
  else (fs1, ⟨fpath, [], none⟩)

/-- The per-file loop of main: process each discovered file in order,
threading the filesystem, appending one outcome per file. -/
def runFiles (fs : FS) (input_dir output_dir : FPath) :
    List (FPath × RawFile) → FS × List Outcome
  | [] => (fs, [])
  | x :: rest =>
    let r := processOne fs input_dir output_dir x.1 x.2
    let r2 := runFiles r.1 input_dir output_dir rest
    (r2.1, r.2 :: r2.2)

/-- Everything main produces that the claims talk about: the final
filesystem, whether the no-files message path was taken, the summary, the
attempted deletions with their per-file results, the printed success and
failure counts with the output root, and the process exit code. -/
structure RunResult where
  fs : FS
  noFilesFound : Bool
  summary : List Outcome
  deletions : List (FPath × Option String)
  printedCounts : Option (Nat × Nat × FPath)
  exitCode : Nat

/-- Model of main after an input directory is available: create the output
root, discover files, and if none were found print the informational
message and exit 0; otherwise convert every file, then (when deletion is
confirmed by flag or prompt) attempt to delete every original, recording
the per-file deletion error the OS reports, and finally print the summary
counts and output root. removeErr gives os.remove's outcome per path. -/
def outRoot (input_dir : FPath) (outputArg : Option FPath) : FPath :=
  match outputArg with
  | some p => p
  | none => input_dir ++ ["_parquet_out"]

/-- Model of main after the output root is fixed: see outRoot for the
default; the rest follows the source line by line. -/
def main_run (tree : DirTree) (input_dir : FPath) (outputArg : Option FPath)
    (deleteConfirmed : Bool) (removeErr : FPath → Option String) (fs0 : FS) : RunResult :=
  let output_dir := outRoot input_dir outputArg
  let fs := ensure_dir fs0 output_dir
  let files := find_files tree input_dir EXTS
  if files = [] then
    ⟨fs, true, [], [], none, 0⟩
  else
    let r := runFiles fs input_dir output_dir files
    let deletions :=
      if deleteConfirmed then r.2.map (fun o => (o.orig, removeErr o.orig)) else []
    let succ := (r.2.filter (fun o => o.err = none)).length
    let fail := (r.2.filter (fun o => o.err ≠ none)).length
    ⟨r.1, false, r.2, deletions, some (succ, fail, output_dir), 0⟩

/-! Branch behaviour of the per-file dispatch. -/

theorem process_csv_dirs_mono (fs : FS) (fileSize : Nat) (rows : List Row)
    (out_dir : FPath) (basename : String) (chunk_size : Nat) (x : FPath)
    (hx : x ∈ fs.dirs) :
    x ∈ (process_csv fs fileSize rows out_dir basename chunk_size).1.dirs := by
  unfold process_csv
  split_ifs
  · show x ∈ (writeParts _ _ _ _).dirs
    rw [writeParts_dirs]
    exact mem_dirs_ensure_dir_of_mem _ _ _ hx
  · exact hx

theorem processOne_csv_ok (fs : FS) (input_dir output_dir dirpath : FPath) (f : RawFile)
    (rows : List Row) (hext : lower (splitext f.fname).2 = ".csv")
    (hok : f.data = Except.ok rows) :
    processOne fs input_dir output_dir dirpath f =
      ((process_csv (ensure_dir fs (output_dir ++ dirpath.drop input_dir.length)) f.size rows
          (output_dir ++ dirpath.drop input_dir.length) (splitext f.fname).1 200000).1,
       ⟨dirpath ++ [f.fname],
        (process_csv (ensure_dir fs (output_dir ++ dirpath.drop input_dir.length)) f.size rows
          (output_dir ++ dirpath.drop input_dir.length) (splitext f.fname).1 200000).2,
        none⟩) := by
  simp [processOne, hext, hok]

theorem processOne_excel_ok (fs : FS) (input_dir output_dir dirpath : FPath) (f : RawFile)
    (rows : List Row)
    (hext : lower (splitext f.fname).2 = ".xlsx" ∨ lower (splitext f.fname).2 = ".xls")
    (hok : f.data = Except.ok rows) :
    processOne fs input_dir output_dir dirpath f =
      (write_df_to_parquet (ensure_dir fs (output_dir ++ dirpath.drop input_dir.length)) rows
         ((output_dir ++ dirpath.drop input_dir.length) ++ [(splitext f.fname).1 ++ ".parquet"]),
       ⟨dirpath ++ [f.fname],
        [(output_dir ++ dirpath.drop input_dir.length) ++ [(splitext f.fname).1 ++ ".parquet"]],
        none⟩) := by
  rcases hext with h | h <;> simp [processOne, h, hok]

theorem processOne_dta_ok (fs : FS) (input_dir output_dir dirpath : FPath) (f : RawFile)
    (rows : List Row) (hext : lower (splitext f.fname).2 = ".dta")
    (hok : f.data = Except.ok rows) :
    processOne fs input_dir output_dir dirpath f =
      (write_df_to_parquet (ensure_dir fs (output_dir ++ dirpath.drop input_dir.length)) rows
         ((output_dir ++ dirpath.drop input_dir.length) ++ [(splitext f.fname).1 ++ ".parquet"]),
       ⟨dirpath ++ [f.fname],
        [(output_dir ++ dirpath.drop input_dir.length) ++ [(splitext f.fname).1 ++ ".parquet"]],
        none⟩) := by
  simp [processOne, hext, hok]

theorem processOne_read_error (fs : FS) (input_dir output_dir dirpath : FPath) (f : RawFile)
    (e : String) (hext : lower (splitext f.fname).2 ∈ EXTS)
    (herr : f.data = Except.error e) :
    processOne fs input_dir output_dir dirpath f =
      (ensure_dir fs (output_dir ++ dirpath.drop input_dir.length),
       ⟨dirpath ++ [f.fname], [], some e⟩) := by
  simp only [EXTS, List.mem_cons, List.not_mem_nil, or_false] at hext
  rcases hext with h | h | h | h <;> simp [processOne, h, herr]

theorem processOne_orig (fs : FS) (input_dir output_dir dirpath : FPath) (f : RawFile) :
    (processOne fs input_dir output_dir dirpath f).2.orig = dirpath ++ [f.fname] := by
  simp only [processOne]
  cases f.data <;> split_ifs <;> rfl

theorem processOne_err_eq (fs : FS) (input_dir output_dir dirpath : FPath) (f : RawFile)
    (hext : lower (splitext f.fname).2 ∈ EXTS) :
    (processOne fs input_dir output_dir dirpath f).2.err = errOf f := by
  cases hd : f.data with
  | ok rows =>
    simp only [EXTS, List.mem_cons, List.not_mem_nil, or_false] at hext
    rcases hext with h | h | h | h
    · rw [processOne_csv_ok fs input_dir output_dir dirpath f rows h hd]
      simp [errOf, hd]
    · rw [processOne_excel_ok fs input_dir output_dir dirpath f rows (Or.inl h) hd]
      simp [errOf, hd]
    · rw [processOne_excel_ok fs input_dir output_dir dirpath f rows (Or.inr h) hd]
      simp [errOf, hd]
    · rw [processOne_dta_ok fs input_dir output_dir dirpath f rows h hd]
      simp [errOf, hd]
  | error e =>
    rw [processOne_read_error fs input_dir output_dir dirpath f e hext hd]
    simp [errOf, hd]

theorem processOne_outs_of_err (fs : FS) (input_dir output_dir dirpath : FPath) (f : RawFile)
    (h : (processOne fs input_dir output_dir dirpath f).2.err ≠ none) :
    (processOne fs input_dir output_dir dirpath f).2.outs = [] := by
  revert h
  simp only [processOne]
  cases f.data <;> split_ifs <;> intro h <;> first | rfl | exact absurd rfl h

theorem processOne_dirs_mono (fs : FS) (input_dir output_dir dirpath : FPath) (f : RawFile)
    (x : FPath) (hx : x ∈ fs.dirs) :
    x ∈ (processOne fs input_dir output_dir dirpath f).1.dirs := by
  have hx1 : x ∈ (ensure_dir fs (output_dir ++ dirpath.drop input_dir.length)).dirs :=
    mem_dirs_ensure_dir_of_mem _ _ _ hx
  simp only [processOne]
  cases f.data <;> split_ifs <;>
    first
      | exact hx1
      | exact process_csv_dirs_mono _ _ _ _ _ _ _ hx1

theorem processOne_target_dirs (fs : FS) (input_dir output_dir dirpath : FPath) (f : RawFile)
    (x : FPath) (hx : x ∈ dirAncestors (output_dir ++ dirpath.drop input_dir.length)) :
    x ∈ (processOne fs input_dir output_dir dirpath f).1.dirs := by
  have hx1 : x ∈ (ensure_dir fs (output_dir ++ dirpath.drop input_dir.length)).dirs :=
    mem_dirs_ensure_dir_of_ancestor _ _ _ hx
  simp only [processOne]
  cases f.data <;> split_ifs <;>
    first
      | exact hx1
      | exact process_csv_dirs_mono _ _ _ _ _ _ _ hx1

/-! The per-file loop: one outcome per discovered file, in order. -/

theorem runFiles_cons (fs : FS) (input_dir output_dir : FPath) (x : FPath × RawFile)
    (rest : List (FPath × RawFile)) :
    runFiles fs input_dir output_dir (x :: rest) =
      ((runFiles (processOne fs input_dir output_dir x.1 x.2).1 input_dir output_dir rest).1,
       (processOne fs input_dir output_dir x.1 x.2).2 ::
         (runFiles (processOne fs input_dir output_dir x.1 x.2).1 input_dir output_dir rest).2) :=
  rfl

theorem runFiles_summary_orig (input_dir output_dir : FPath) :
    ∀ (files : List (FPath × RawFile)) (fs : FS),
      (runFiles fs input_dir output_dir files).2.map (fun oc => oc.orig) =
        files.map (fun x => x.1 ++ [x.2.fname]) := by
  intro files
  induction files with
  | nil => intro fs; rfl
  | cons x rest ih =>
    intro fs
    rw [runFiles_cons]
    simp only [List.map_cons]
    rw [processOne_orig fs input_dir output_dir x.1 x.2, ih _]

theorem runFiles_summary_err (input_dir output_dir : FPath) :
    ∀ (files : List (FPath × RawFile)) (fs : FS),
      (∀ x ∈ files, lower (splitext x.2.fname).2 ∈ EXTS) →
      (runFiles fs input_dir output_dir files).2.map (fun oc => oc.err) =
        files.map (fun x => errOf x.2) := by
  intro files
  induction files with
  | nil => intro fs _; rfl
  | cons x rest ih =>
    intro fs hext
    rw [runFiles_cons]
    simp only [List.map_cons]
    rw [processOne_err_eq fs input_dir output_dir x.1 x.2 (hext x (List.mem_cons_self x rest)),
      ih _ (fun y hy => hext y (List.mem_cons_of_mem x hy))]

theorem runFiles_length (input_dir output_dir : FPath) (files : List (FPath × RawFile))
    (fs : FS) : (runFiles fs input_dir output_dir files).2.length = files.length := by
  have h := congrArg List.length (runFiles_summary_orig input_dir output_dir files fs)
  simpa using h

theorem runFiles_outs_of_err (input_dir output_dir : FPath) :
    ∀ (files : List (FPath × RawFile)) (fs : FS),
      ∀ oc ∈ (runFiles fs input_dir output_dir files).2, oc.err ≠ none → oc.outs = [] := by
  intro files
  induction files with
  | nil => intro fs oc hoc; cases hoc
  | cons x rest ih =>
    intro fs oc hoc herr
    rw [runFiles_cons] at hoc
    rcases List.mem_cons.mp hoc with h | h
    · subst h
      exact processOne_outs_of_err fs input_dir output_dir x.1 x.2 herr
    · exact ih _ oc h herr

theorem runFiles_dirs_mono (input_dir output_dir : FPath) :
    ∀ (files : List (FPath × RawFile)) (fs : FS) (x : FPath),
      x ∈ fs.dirs → x ∈ (runFiles fs input_dir output_dir files).1.dirs := by
  intro files
  induction files with
  | nil => intro fs x hx; exact hx
  | cons y rest ih =>
    intro fs x hx
    rw [runFiles_cons]
    exact ih _ x (processOne_dirs_mono fs input_dir output_dir y.1 y.2 x hx)

/-- C3: an input file at relative directory rel under the input root is
converted into the mirrored directory output_root ++ rel: that target
directory and all its ancestors are present after processing and its
creation is idempotent; a non-chunked conversion (CSV at most 50 MiB,
Excel, Stata) writes exactly output_root ++ rel / base.parquet, and a
chunked CSV writes every output inside the directory
output_root ++ rel / base. -/
theorem c3_layout_mapping (fs : FS) (input_dir output_dir rel : FPath) (f : RawFile) :
    (∀ d ∈ dirAncestors (output_dir ++ rel),
      d ∈ (processOne fs input_dir output_dir (input_dir ++ rel) f).1.dirs) ∧
    (∀ g : FS, ensure_dir (ensure_dir g (output_dir ++ rel)) (output_dir ++ rel) =
      ensure_dir g (output_dir ++ rel)) ∧
    (∀ rows, f.data = Except.ok rows →
      ((lower (splitext f.fname).2 = ".csv" ∧ f.size ≤ 50 * 1024 * 1024) ∨
        lower (splitext f.fname).2 = ".xlsx" ∨ lower (splitext f.fname).2 = ".xls" ∨
        lower (splitext f.fname).2 = ".dta") →
      (processOne fs input_dir output_dir (input_dir ++ rel) f).2.outs =
        [output_dir ++ rel ++ [(splitext f.fname).1 ++ ".parquet"]]) ∧
    (∀ rows, f.data = Except.ok rows → lower (splitext f.fname).2 = ".csv" →
      50 * 1024 * 1024 < f.size →
      ∀ p ∈ (processOne fs input_dir output_dir (input_dir ++ rel) f).2.outs,
        ∃ nm : String, p = output_dir ++ rel ++ [(splitext f.fname).1] ++ [nm]) := by
  have hdrop : List.drop input_dir.length (input_dir ++ rel) = rel :=
    List.drop_left input_dir rel
  refine ⟨?_, ?_, ?_, ?_⟩
  · intro d hd
    apply processOne_target_dirs
    rw [hdrop]
    exact hd
  · intro g
    exact ensure_dir_idem g _
  · intro rows hok hext
    rcases hext with ⟨hcsv, hsize⟩ | h | h | h
    · rw [processOne_csv_ok fs input_dir output_dir (input_dir ++ rel) f rows hcsv hok]
      show (process_csv _ f.size rows _ _ 200000).2 = _
      rw [process_csv_small _ _ _ _ _ _ (by omega), hdrop]
    · rw [processOne_excel_ok fs input_dir output_dir (input_dir ++ rel) f rows (Or.inl h) hok,
        hdrop]
    · rw [processOne_excel_ok fs input_dir output_dir (input_dir ++ rel) f rows (Or.inr h) hok,
        hdrop]
    · rw [processOne_dta_ok fs input_dir output_dir (input_dir ++ rel) f rows h hok, hdrop]
  · intro rows hok hcsv hlarge p hp
    rw [processOne_csv_ok fs input_dir output_dir (input_dir ++ rel) f rows hcsv hok] at hp
    have hp2 : p ∈ (process_csv (ensure_dir fs (output_dir ++
        List.drop input_dir.length (input_dir ++ rel))) f.size rows
        (output_dir ++ List.drop input_dir.length (input_dir ++ rel))
        (splitext f.fname).1 200000).2 := hp
    rw [process_csv_large _ _ _ _ _ _ hlarge] at hp2
    rw [hdrop] at hp2
    rcases List.mem_map.mp hp2 with ⟨nm, _, hnm⟩
    exact ⟨nm, hnm.symm⟩

/-- Witness for C3 at a file in/a/b/c.csv with output root o. -/
theorem c3_layout_mapping_witness :
    (∀ d ∈ dirAncestors (["o"] ++ ["a", "b"]),
      d ∈ (processOne ⟨[], [], []⟩ ["in"] ["o"] (["in"] ++ ["a", "b"])
        ⟨"c.csv", 10, Except.ok [["v"]]⟩).1.dirs) ∧
    (∀ g : FS, ensure_dir (ensure_dir g (["o"] ++ ["a", "b"])) (["o"] ++ ["a", "b"]) =
      ensure_dir g (["o"] ++ ["a", "b"])) ∧
    (∀ rows, (RawFile.mk "c.csv" 10 (Except.ok [["v"]])).data = Except.ok rows →
      ((lower (splitext "c.csv").2 = ".csv" ∧
          (RawFile.mk "c.csv" 10 (Except.ok [["v"]])).size ≤ 50 * 1024 * 1024) ∨
        lower (splitext "c.csv").2 = ".xlsx" ∨ lower (splitext "c.csv").2 = ".xls" ∨
        lower (splitext "c.csv").2 = ".dta") →
      (processOne ⟨[], [], []⟩ ["in"] ["o"] (["in"] ++ ["a", "b"])
        ⟨"c.csv", 10, Except.ok [["v"]]⟩).2.outs =
        [["o"] ++ ["a", "b"] ++ [(splitext "c.csv").1 ++ ".parquet"]]) ∧
    (∀ rows, (RawFile.mk "c.csv" 10 (Except.ok [["v"]])).data = Except.ok rows →
      lower (splitext "c.csv").2 = ".csv" →
      50 * 1024 * 1024 < (RawFile.mk "c.csv" 10 (Except.ok [["v"]])).size →
      ∀ p ∈ (processOne ⟨[], [], []⟩ ["in"] ["o"] (["in"] ++ ["a", "b"])
          ⟨"c.csv", 10, Except.ok [["v"]]⟩).2.outs,
        ∃ nm : String, p = ["o"] ++ ["a", "b"] ++ [(splitext "c.csv").1] ++ [nm]) :=
  c3_layout_mapping ⟨[], [], []⟩ ["in"] ["o"] ["a", "b"] ⟨"c.csv", 10, Except.ok [["v"]]⟩

/-- C7: for a conversion that succeeds, the outcome's output-path list is
exactly (as a permutation, since the source sorts the part listing) the
files this conversion wrote, measured by the write log; and the loop
records exactly one outcome per discovered input file (outcomes are values
of the fold and are never mutated afterward). -/
theorem c7_outcome_records_outputs (fs : FS) (input_dir output_dir dirpath : FPath)
    (f : RawFile)
    (hfresh : listdir fs ((output_dir ++ dirpath.drop input_dir.length) ++
      [(splitext f.fname).1]) = []) :
    ((processOne fs input_dir output_dir dirpath f).2.err = none →
      List.Perm
        ((processOne fs input_dir output_dir dirpath f).1.log.drop fs.log.length)
        (processOne fs input_dir output_dir dirpath f).2.outs) ∧
    (∀ (g : FS) (files : List (FPath × RawFile)),
      (runFiles g input_dir output_dir files).2.length = files.length) := by
  refine ⟨?_, fun g files => runFiles_length input_dir output_dir files g⟩
  cases hd : f.data with
  | error e =>
    by_cases h1 : lower (splitext f.fname).2 = ".csv"
    · rw [processOne_read_error fs input_dir output_dir dirpath f e (by simp [EXTS, h1]) hd]
      intro habs
      cases habs
    · by_cases h2 : lower (splitext f.fname).2 = ".xlsx" ∨ lower (splitext f.fname).2 = ".xls"
      · rw [processOne_read_error fs input_dir output_dir dirpath f e
          (by rcases h2 with h | h <;> simp [EXTS, h]) hd]
        intro habs
        cases habs
      · by_cases h3 : lower (splitext f.fname).2 = ".dta"
        · rw [processOne_read_error fs input_dir output_dir dirpath f e (by simp [EXTS, h3]) hd]
          intro habs
          cases habs
        · intro _
          have heq : processOne fs input_dir output_dir dirpath f =
              (ensure_dir fs (output_dir ++ dirpath.drop input_dir.length),
               ⟨dirpath ++ [f.fname], [], none⟩) := by
            simp only [processOne, hd]
            rw [if_neg h1, if_neg h2, if_neg h3]
          rw [heq]
          show List.Perm (List.drop fs.log.length (ensure_dir fs _).log) []
          rw [ensure_dir_log, List.drop_length]
  | ok rows =>
    by_cases h1 : lower (splitext f.fname).2 = ".csv"
    · rw [processOne_csv_ok fs input_dir output_dir dirpath f rows h1 hd]
      intro _
      by_cases hsz : 50 * 1024 * 1024 < f.size
      · obtain ⟨hfi, hls, hout, hlog⟩ := process_csv_chunked_spec
          (ensure_dir fs (output_dir ++ dirpath.drop input_dir.length)) f.size rows
          (output_dir ++ dirpath.drop input_dir.length) (splitext f.fname).1 hsz hfresh
        show List.Perm (List.drop fs.log.length (process_csv _ _ _ _ _ _).1.log)
          (process_csv _ _ _ _ _ _).2
        rw [hout, hlog, ensure_dir_log, List.drop_left]
        have hmm : (List.range' 0 (chunksOf 200000 rows).length).map
            (fun j => ((output_dir ++ dirpath.drop input_dir.length) ++
              [(splitext f.fname).1]) ++ [partName j]) =
            ((List.range' 0 (chunksOf 200000 rows).length).map partName).map
              (fun s => ((output_dir ++ dirpath.drop input_dir.length) ++
                [(splitext f.fname).1]) ++ [s]) := by
          rw [List.map_map]
          rfl
        rw [hmm]
        exact (List.Perm.map _ (List.perm_insertionSort _ _)).symm
      · show List.Perm (List.drop fs.log.length (process_csv _ _ _ _ _ _).1.log)
          (process_csv _ _ _ _ _ _).2
        rw [process_csv_small _ _ _ _ _ _ hsz]
        show List.Perm (List.drop fs.log.length ((ensure_dir fs _).log ++ _)) _
        rw [ensure_dir_log, List.drop_left]
    · by_cases h2 : lower (splitext f.fname).2 = ".xlsx" ∨ lower (splitext f.fname).2 = ".xls"
      · rw [processOne_excel_ok fs input_dir output_dir dirpath f rows h2 hd]
        intro _
        show List.Perm (List.drop fs.log.length ((ensure_dir fs _).log ++ _)) _
        rw [ensure_dir_log, List.drop_left]
      · by_cases h3 : lower (splitext f.fname).2 = ".dta"
        · rw [processOne_dta_ok fs input_dir output_dir dirpath f rows h3 hd]
          intro _
          show List.Perm (List.drop fs.log.length ((ensure_dir fs _).log ++ _)) _
          rw [ensure_dir_log, List.drop_left]
        · intro _
          have heq : processOne fs input_dir output_dir dirpath f =
              (ensure_dir fs (output_dir ++ dirpath.drop input_dir.length),
               ⟨dirpath ++ [f.fname], [], none⟩) := by
            simp only [processOne, hd]
            rw [if_neg h1, if_neg h2, if_neg h3]
          rw [heq]
          show List.Perm (List.drop fs.log.length (ensure_dir fs _).log) []
          rw [ensure_dir_log, List.drop_length]

/-- Witness for C7 at a small spreadsheet file directly under the root. -/
theorem c7_outcome_records_outputs_witness :
    ((processOne ⟨[], [], []⟩ ["in"] ["o"] ["in"] ⟨"s.xlsx", 9, Except.ok [["v"]]⟩).2.err =
        none →
      List.Perm
        ((processOne ⟨[], [], []⟩ ["in"] ["o"] ["in"]
            ⟨"s.xlsx", 9, Except.ok [["v"]]⟩).1.log.drop (FS.mk [] [] []).log.length)
        (processOne ⟨[], [], []⟩ ["in"] ["o"] ["in"] ⟨"s.xlsx", 9, Except.ok [["v"]]⟩).2.outs) ∧
    (∀ (g : FS) (files : List (FPath × RawFile)),
      (runFiles g ["in"] ["o"] files).2.length = files.length) :=
  c7_outcome_records_outputs ⟨[], [], []⟩ ["in"] ["o"] ["in"] ⟨"s.xlsx", 9, Except.ok [["v"]]⟩
    rfl

/-! Reductions of main_run on the two discovery outcomes. -/

theorem main_run_no_files (tree : DirTree) (input_dir : FPath) (outputArg : Option FPath)
    (del : Bool) (removeErr : FPath → Option String) (fs0 : FS)
    (h : find_files tree input_dir EXTS = []) :
    main_run tree input_dir outputArg del removeErr fs0 =
      ⟨ensure_dir fs0 (outRoot input_dir outputArg), true, [], [], none, 0⟩ := by
  simp [main_run, h]

theorem main_run_summary (tree : DirTree) (input_dir : FPath) (outputArg : Option FPath)
    (del : Bool) (removeErr : FPath → Option String) (fs0 : FS)
    (h : find_files tree input_dir EXTS ≠ []) :
    (main_run tree input_dir outputArg del removeErr fs0).summary =
      (runFiles (ensure_dir fs0 (outRoot input_dir outputArg)) input_dir
        (outRoot input_dir outputArg) (find_files tree input_dir EXTS)).2 := by
  simp [main_run, h]

theorem main_run_fs (tree : DirTree) (input_dir : FPath) (outputArg : Option FPath)
    (del : Bool) (removeErr : FPath → Option String) (fs0 : FS)
    (h : find_files tree input_dir EXTS ≠ []) :
    (main_run tree input_dir outputArg del removeErr fs0).fs =
      (runFiles (ensure_dir fs0 (outRoot input_dir outputArg)) input_dir
        (outRoot input_dir outputArg) (find_files tree input_dir EXTS)).1 := by
  simp [main_run, h]

theorem main_run_deletions (tree : DirTree) (input_dir : FPath) (outputArg : Option FPath)
    (removeErr : FPath → Option String) (fs0 : FS)
    (h : find_files tree input_dir EXTS ≠ []) :
    (main_run tree input_dir outputArg true removeErr fs0).deletions =
      (main_run tree input_dir outputArg true removeErr fs0).summary.map
        (fun oc => (oc.orig, removeErr oc.orig)) := by
  simp [main_run, h]

theorem main_run_counts (tree : DirTree) (input_dir : FPath) (outputArg : Option FPath)
    (del : Bool) (removeErr : FPath → Option String) (fs0 : FS)
    (h : find_files tree input_dir EXTS ≠ []) :
    (main_run tree input_dir outputArg del removeErr fs0).printedCounts =
      some
        (((main_run tree input_dir outputArg del removeErr fs0).summary.filter
            (fun oc => oc.err = none)).length,
         ((main_run tree input_dir outputArg del removeErr fs0).summary.filter
            (fun oc => oc.err ≠ none)).length,
         outRoot input_dir outputArg) := by
  simp [main_run, h]

theorem main_run_flags (tree : DirTree) (input_dir : FPath) (outputArg : Option FPath)
    (del : Bool) (removeErr : FPath → Option String) (fs0 : FS)
    (h : find_files tree input_dir EXTS ≠ []) :
    (main_run tree input_dir outputArg del removeErr fs0).noFilesFound = false ∧
    (main_run tree input_dir outputArg del removeErr fs0).exitCode = 0 := by
  simp [main_run, h]

theorem find_files_ext (tree : DirTree) (input_dir : FPath) :
    ∀ x ∈ find_files tree input_dir EXTS, lower (splitext x.2.fname).2 ∈ EXTS := by
  intro x hx
  have h := List.mem_filter.mp hx
  exact of_decide_eq_true h.2

theorem length_filter_of_map_eq {A B : Type} (f : A → Option String) (g : B → Option String)
    (l1 : List A) (l2 : List B) (h : l1.map f = l2.map g) (p : Option String → Bool) :
    (l1.filter (fun a => p (f a))).length = (l2.filter (fun b => p (g b))).length := by
  have e1 : (l1.filter (fun a => p (f a))).length = ((l1.map f).filter p).length := by
    rw [← List.countP_eq_length_filter, ← List.countP_eq_length_filter, List.countP_map]
    rfl
  have e2 : (l2.filter (fun b => p (g b))).length = ((l2.map g).filter p).length := by
    rw [← List.countP_eq_length_filter, ← List.countP_eq_length_filter, List.countP_map]
    rfl
  rw [e1, e2, h]

theorem length_filter_add_length_filter_not {A : Type} (l : List A) (p : A → Prop)
    [DecidablePred p] :
    (l.filter (fun a => p a)).length + (l.filter (fun a => ¬ p a)).length = l.length := by
  induction l with
  | nil => rfl
  | cons a t ih =>
    rw [List.filter_cons, List.filter_cons]
    by_cases h : p a
    · rw [if_pos (by simp [h]), if_neg (by simp [h])]
      simp only [List.length_cons]
      omega
    · rw [if_neg (by simp [h]), if_pos (by simp [h])]
      simp only [List.length_cons]
      omega

/-- C5: every discovered file gets exactly one recorded outcome: a failed
read yields a failed outcome carrying the error description and an empty
output list, and processing continues over the whole discovered list, so a
run over N files among which exactly one is corrupt yields N-1 outcomes
without error and 1 with an error. -/
theorem c5_error_containment (tree : DirTree) (input_dir : FPath) (outputArg : Option FPath)
    (del : Bool) (removeErr : FPath → Option String) (fs0 : FS)
    (hne : find_files tree input_dir EXTS ≠ []) :
    (main_run tree input_dir outputArg del removeErr fs0).summary.map (fun oc => oc.err) =
      (find_files tree input_dir EXTS).map (fun x => errOf x.2) ∧
    (main_run tree input_dir outputArg del removeErr fs0).summary.map (fun oc => oc.orig) =
      (find_files tree input_dir EXTS).map (fun x => x.1 ++ [x.2.fname]) ∧
    (∀ oc ∈ (main_run tree input_dir outputArg del removeErr fs0).summary,
      oc.err ≠ none → oc.outs = []) ∧
    (main_run tree input_dir outputArg del removeErr fs0).summary.length =
      (find_files tree input_dir EXTS).length ∧
    ((main_run tree input_dir outputArg del removeErr fs0).summary.filter
        (fun oc => oc.err = none)).length =
      ((find_files tree input_dir EXTS).filter (fun x => errOf x.2 = none)).length ∧
    ((main_run tree input_dir outputArg del removeErr fs0).summary.filter
        (fun oc => oc.err ≠ none)).length =
      ((find_files tree input_dir EXTS).filter (fun x => errOf x.2 ≠ none)).length := by
  have hsum := main_run_summary tree input_dir outputArg del removeErr fs0 hne
  have hext := find_files_ext tree input_dir
  have hmape : (main_run tree input_dir outputArg del removeErr fs0).summary.map
      (fun oc => oc.err) = (find_files tree input_dir EXTS).map (fun x => errOf x.2) := by
    rw [hsum]
    exact runFiles_summary_err _ _ _ _ hext
  refine ⟨hmape, ?_, ?_, ?_, ?_, ?_⟩
  · rw [hsum]
    exact runFiles_summary_orig _ _ _ _
  · rw [hsum]
    exact runFiles_outs_of_err _ _ _ _
  · rw [hsum]
    exact runFiles_length _ _ _ _
  · exact length_filter_of_map_eq (fun oc : Outcome => oc.err)
      (fun x : FPath × RawFile => errOf x.2) _ _ hmape (fun v => decide (v = none))
  · exact length_filter_of_map_eq (fun oc : Outcome => oc.err)
      (fun x : FPath × RawFile => errOf x.2) _ _ hmape (fun v => decide (v ≠ none))

/-- Witness for C5: two discovered CSVs, one of which fails to read. -/
theorem c5_error_containment_witness :
    (main_run (DirTree.node [⟨"a.csv", 10, Except.ok [["1"]]⟩,
        ⟨"bad.csv", 10, Except.error "boom"⟩] []) ["in"] (some ["o"]) false (fun _ => none)
        ⟨[], [], []⟩).summary.map (fun oc => oc.err) =
      (find_files (DirTree.node [⟨"a.csv", 10, Except.ok [["1"]]⟩,
        ⟨"bad.csv", 10, Except.error "boom"⟩] []) ["in"] EXTS).map (fun x => errOf x.2) ∧
    ((main_run (DirTree.node [⟨"a.csv", 10, Except.ok [["1"]]⟩,
        ⟨"bad.csv", 10, Except.error "boom"⟩] []) ["in"] (some ["o"]) false (fun _ => none)
        ⟨[], [], []⟩).summary.filter (fun oc => oc.err = none)).length = 1 ∧
    ((main_run (DirTree.node [⟨"a.csv", 10, Except.ok [["1"]]⟩,
        ⟨"bad.csv", 10, Except.error "boom"⟩] []) ["in"] (some ["o"]) false (fun _ => none)
        ⟨[], [], []⟩).summary.filter (fun oc => oc.err ≠ none)).length = 1 := by
  have h := c5_error_containment (DirTree.node [⟨"a.csv", 10, Except.ok [["1"]]⟩,
    ⟨"bad.csv", 10, Except.error "boom"⟩] []) ["in"] (some ["o"]) false (fun _ => none)
    ⟨[], [], []⟩ (by decide)
  refine ⟨h.1, ?_, ?_⟩
  · rw [h.2.2.2.2.1]
    decide
  · rw [h.2.2.2.2.2]
    decide

/-- C6: when deletion is confirmed, a deletion is attempted for every
originally discovered input file (successful and failed conversions alike),
each recording its own per-file result from the OS, and every summary entry
has its matching deletion attempt. -/
theorem c6_deletion_attempts (tree : DirTree) (input_dir : FPath) (outputArg : Option FPath)
    (removeErr : FPath → Option String) (fs0 : FS)
    (hne : find_files tree input_dir EXTS ≠ []) :
    (main_run tree input_dir outputArg true removeErr fs0).deletions =
      (find_files tree input_dir EXTS).map
        (fun x => (x.1 ++ [x.2.fname], removeErr (x.1 ++ [x.2.fname]))) ∧
    (main_run tree input_dir outputArg true removeErr fs0).deletions.map Prod.fst =
      (main_run tree input_dir outputArg true removeErr fs0).summary.map
        (fun oc => oc.orig) := by
  have hdel := main_run_deletions tree input_dir outputArg removeErr fs0 hne
  have horig : (main_run tree input_dir outputArg true removeErr fs0).summary.map
      (fun oc => oc.orig) = (find_files tree input_dir EXTS).map
        (fun x => x.1 ++ [x.2.fname]) := by
    rw [main_run_summary tree input_dir outputArg true removeErr fs0 hne]
    exact runFiles_summary_orig _ _ _ _
  constructor
  · calc (main_run tree input_dir outputArg true removeErr fs0).deletions
        = (main_run tree input_dir outputArg true removeErr fs0).summary.map
            (fun oc => (oc.orig, removeErr oc.orig)) := hdel
      _ = ((main_run tree input_dir outputArg true removeErr fs0).summary.map
            (fun oc => oc.orig)).map (fun p => (p, removeErr p)) := by
            rw [List.map_map]
            rfl
      _ = ((find_files tree input_dir EXTS).map (fun x => x.1 ++ [x.2.fname])).map
            (fun p => (p, removeErr p)) := by rw [horig]
      _ = (find_files tree input_dir EXTS).map
            (fun x => (x.1 ++ [x.2.fname], removeErr (x.1 ++ [x.2.fname]))) := by
            rw [List.map_map]
            rfl
  · rw [hdel, List.map_map]
    rfl

/-- Witness for C6: the failed file's deletion is attempted as well. -/
theorem c6_deletion_attempts_witness :
    (main_run (DirTree.node [⟨"bad.csv", 10, Except.error "boom"⟩] []) ["in"] (some ["o"])
        true (fun _ => some "denied") ⟨[], [], []⟩).deletions =
      (find_files (DirTree.node [⟨"bad.csv", 10, Except.error "boom"⟩] []) ["in"] EXTS).map
        (fun x => (x.1 ++ [x.2.fname], (fun _ : FPath => some "denied") (x.1 ++ [x.2.fname]))) ∧
    (main_run (DirTree.node [⟨"bad.csv", 10, Except.error "boom"⟩] []) ["in"] (some ["o"])
        true (fun _ => some "denied") ⟨[], [], []⟩).deletions.map Prod.fst =
      (main_run (DirTree.node [⟨"bad.csv", 10, Except.error "boom"⟩] []) ["in"] (some ["o"])
        true (fun _ => some "denied") ⟨[], [], []⟩).summary.map (fun oc => oc.orig) :=
  c6_deletion_attempts (DirTree.node [⟨"bad.csv", 10, Except.error "boom"⟩] []) ["in"]
    (some ["o"]) (fun _ => some "denied") ⟨[], [], []⟩ (by decide)

/-- C8: after processing, the printed summary holds the count of outcomes
without error, the count of outcomes with an error, and the output root;
the two counts sum to the number of discovered files. -/
theorem c8_summary_counts (tree : DirTree) (input_dir out_dir : FPath) (del : Bool)
    (removeErr : FPath → Option String) (fs0 : FS)
    (hne : find_files tree input_dir EXTS ≠ []) :
    (main_run tree input_dir (some out_dir) del removeErr fs0).printedCounts =
      some
        (((main_run tree input_dir (some out_dir) del removeErr fs0).summary.filter
            (fun oc => oc.err = none)).length,
         ((main_run tree input_dir (some out_dir) del removeErr fs0).summary.filter
            (fun oc => oc.err ≠ none)).length,
         out_dir) ∧
    ((main_run tree input_dir (some out_dir) del removeErr fs0).summary.filter
        (fun oc => oc.err = none)).length +
      ((main_run tree input_dir (some out_dir) del removeErr fs0).summary.filter
        (fun oc => oc.err ≠ none)).length =
      (find_files tree input_dir EXTS).length := by
  constructor
  · exact main_run_counts tree input_dir (some out_dir) del removeErr fs0 hne
  · have hpart := length_filter_add_length_filter_not
      (main_run tree input_dir (some out_dir) del removeErr fs0).summary
      (fun oc => oc.err = none)
    have hlen : (main_run tree input_dir (some out_dir) del removeErr fs0).summary.length =
        (find_files tree input_dir EXTS).length := by
      rw [main_run_summary tree input_dir (some out_dir) del removeErr fs0 hne]
      exact runFiles_length _ _ _ _
    rw [← hlen]
    exact hpart

/-- Witness for C8 at a one-file run. -/
theorem c8_summary_counts_witness :
    (main_run (DirTree.node [⟨"a.csv", 10, Except.ok [["1"]]⟩] []) ["in"] (some ["o"]) false
        (fun _ => none) ⟨[], [], []⟩).printedCounts =
      some
        (((main_run (DirTree.node [⟨"a.csv", 10, Except.ok [["1"]]⟩] []) ["in"] (some ["o"])
            false (fun _ => none) ⟨[], [], []⟩).summary.filter
            (fun oc => oc.err = none)).length,
         ((main_run (DirTree.node [⟨"a.csv", 10, Except.ok [["1"]]⟩] []) ["in"] (some ["o"])
            false (fun _ => none) ⟨[], [], []⟩).summary.filter
            (fun oc => oc.err ≠ none)).length,
         ["o"]) ∧
    ((main_run (DirTree.node [⟨"a.csv", 10, Except.ok [["1"]]⟩] []) ["in"] (some ["o"]) false
        (fun _ => none) ⟨[], [], []⟩).summary.filter (fun oc => oc.err = none)).length +
      ((main_run (DirTree.node [⟨"a.csv", 10, Except.ok [["1"]]⟩] []) ["in"] (some ["o"]) false
        (fun _ => none) ⟨[], [], []⟩).summary.filter (fun oc => oc.err ≠ none)).length =
      (find_files (DirTree.node [⟨"a.csv", 10, Except.ok [["1"]]⟩] []) ["in"] EXTS).length :=
  c8_summary_counts (DirTree.node [⟨"a.csv", 10, Except.ok [["1"]]⟩] []) ["in"] ["o"] false
    (fun _ => none) ⟨[], [], []⟩ (by decide)

/-- C9: if the recursive walk of the input root finds no file whose
case-insensitive extension is .csv, .xlsx, .xls or .dta, the run takes the
informational-message path and exits with status 0, recording no outcome,
attempting no deletion and printing no summary. -/
theorem c9_no_files_clean_exit (tree : DirTree) (input_dir : FPath)
    (outputArg : Option FPath) (del : Bool) (removeErr : FPath → Option String) (fs0 : FS)
    (hnone : ∀ x ∈ walk tree input_dir, lower (splitext x.2.fname).2 ∉ EXTS) :
    (main_run tree input_dir outputArg del removeErr fs0).noFilesFound = true ∧
    (main_run tree input_dir outputArg del removeErr fs0).exitCode = 0 ∧
    (main_run tree input_dir outputArg del removeErr fs0).summary = [] ∧
    (main_run tree input_dir outputArg del removeErr fs0).deletions = [] ∧
    (main_run tree input_dir outputArg del removeErr fs0).printedCounts = none := by
  have hf : find_files tree input_dir EXTS = [] := by
    apply List.filter_eq_nil_iff.mpr
    intro a ha hp
    exact hnone a ha (of_decide_eq_true hp)
  rw [main_run_no_files tree input_dir outputArg del removeErr fs0 hf]
  exact ⟨rfl, rfl, rfl, rfl, rfl⟩

/-- Witness for C9: a tree holding only notes.txt and an empty
sub-directory. -/
theorem c9_no_files_clean_exit_witness :
    (main_run (DirTree.node [⟨"notes.txt", 3, Except.ok []⟩] [("sub", DirTree.node [] [])])
        ["in"] (some ["o"]) true (fun _ => none) ⟨[], [], []⟩).noFilesFound = true ∧
    (main_run (DirTree.node [⟨"notes.txt", 3, Except.ok []⟩] [("sub", DirTree.node [] [])])
        ["in"] (some ["o"]) true (fun _ => none) ⟨[], [], []⟩).exitCode = 0 ∧
    (main_run (DirTree.node [⟨"notes.txt", 3, Except.ok []⟩] [("sub", DirTree.node [] [])])
        ["in"] (some ["o"]) true (fun _ => none) ⟨[], [], []⟩).summary = [] ∧
    (main_run (DirTree.node [⟨"notes.txt", 3, Except.ok []⟩] [("sub", DirTree.node [] [])])
        ["in"] (some ["o"]) true (fun _ => none) ⟨[], [], []⟩).deletions = [] ∧
    (main_run (DirTree.node [⟨"notes.txt", 3, Except.ok []⟩] [("sub", DirTree.node [] [])])
        ["in"] (some ["o"]) true (fun _ => none) ⟨[], [], []⟩).printedCounts = none :=
  c9_no_files_clean_exit
    (DirTree.node [⟨"notes.txt", 3, Except.ok []⟩] [("sub", DirTree.node [] [])])
    ["in"] (some ["o"]) true (fun _ => none) ⟨[], [], []⟩ (by decide)

/-- C10: the output root directory, with all its missing ancestors, is
created before file discovery, so it exists after every run, including a
run over an input tree with no matching files. -/
theorem c10_outputRoot_precreated (tree : DirTree) (input_dir out_dir : FPath) (del : Bool)
    (removeErr : FPath → Option String) (fs0 : FS) :
    (∀ d ∈ dirAncestors out_dir,
      d ∈ (main_run tree input_dir (some out_dir) del removeErr fs0).fs.dirs) ∧
    (find_files tree input_dir EXTS = [] →
      (main_run tree input_dir (some out_dir) del removeErr fs0).noFilesFound = true) := by
  by_cases hf : find_files tree input_dir EXTS = []
  · rw [main_run_no_files tree input_dir (some out_dir) del removeErr fs0 hf]
    constructor
    · intro d hd
      exact mem_dirs_ensure_dir_of_ancestor fs0 _ d hd
    · intro _
      rfl
  · constructor
    · intro d hd
      rw [main_run_fs tree input_dir (some out_dir) del removeErr fs0 hf]
      apply runFiles_dirs_mono
      exact mem_dirs_ensure_dir_of_ancestor fs0 _ d hd
    · intro hcontra
      exact absurd hcontra hf

/-- Witness for C10 at a run over an empty tree. -/
theorem c10_outputRoot_precreated_witness :
    (∀ d ∈ dirAncestors ["o", "p"],
      d ∈ (main_run (DirTree.node [] []) ["in"] (some ["o", "p"]) false (fun _ => none)
        ⟨[], [], []⟩).fs.dirs) ∧
    (find_files (DirTree.node [] []) ["in"] EXTS = [] →
      (main_run (DirTree.node [] []) ["in"] (some ["o", "p"]) false (fun _ => none)
        ⟨[], [], []⟩).noFilesFound = true) :=
  c10_outputRoot_precreated (DirTree.node [] []) ["in"] ["o", "p"] false (fun _ => none)
    ⟨[], [], []⟩
